import Mathlib

/-!
Verification development for the markdown-to-HTML converter
(`src/markdown2html.py`).  The script is embedded shallowly: text is
`List Char`, the block state machine is explicit state passing over a
three-flag record, the two regex substitution passes are modelled by a
left-to-right shortest-match scanner, and the `[[...]]` directive uses a
full MD5 implementation over `Nat` arithmetic modulo 2^32.
-/

set_option maxRecDepth 100000

namespace Markdown2Html

/-- Python's default `str.strip()` whitespace set (ASCII part). -/
def isPySpace (ch : Char) : Bool :=
  ch = ' ' || ch = '\t' || ch = '\n' || ch = '\r' || ch = '\x0b' || ch = '\x0c'

/-- Model of Python `str.strip()`: drop whitespace from both ends. -/
def pyStrip (l : List Char) : List Char :=
  ((l.dropWhile isPySpace).reverse.dropWhile isPySpace).reverse

/-- UTF-8 encoding of a character sequence, as byte values (`Nat < 256`);
models Python's `str.encode()`. -/
def utf8Bytes : List Char → List Nat
  | [] => []
  | ch :: cs =>
    let n := ch.toNat
    (if n < 128 then [n]
     else if n < 2048 then [192 + n / 64, 128 + n % 64]
     else if n < 65536 then [224 + n / 4096, 128 + (n / 64) % 64, 128 + n % 64]
     else [240 + n / 262144, 128 + (n / 4096) % 64, 128 + (n / 64) % 64, 128 + n % 64])
    ++ utf8Bytes cs

/-! ### MD5 (RFC 1321), over `Nat` with explicit reduction modulo 2^32 -/

/-- Left rotation of a 32-bit value `x < 2^32` by `s ≤ 32` bits. -/
def rotl32 (x s : Nat) : Nat := (x * 2 ^ s + x / 2 ^ (32 - s)) % 4294967296

/-- Bitwise complement of a 32-bit value `x < 2^32`. -/
def mnot (x : Nat) : Nat := 4294967295 - x

def md5F (b c d : Nat) : Nat := (b &&& c) ||| (mnot b &&& d)

def md5G (b c d : Nat) : Nat := (d &&& b) ||| (mnot d &&& c)

def md5H (b c d : Nat) : Nat := b ^^^ c ^^^ d

def md5I (b c d : Nat) : Nat := c ^^^ (b ||| mnot d)

/-- The 64 MD5 sine-derived round constants. -/
def md5K : List Nat :=
  [0xd76aa478, 0xe8c7b756, 0x242070db, 0xc1bdceee,
   0xf57c0faf, 0x4787c62a, 0xa8304613, 0xfd469501,
   0x698098d8, 0x8b44f7af, 0xffff5bb1, 0x895cd7be,
   0x6b901122, 0xfd987193, 0xa679438e, 0x49b40821,
   0xf61e2562, 0xc040b340, 0x265e5a51, 0xe9b6c7aa,
   0xd62f105d, 0x02441453, 0xd8a1e681, 0xe7d3fbc8,
   0x21e1cde6, 0xc33707d6, 0xf4d50d87, 0x455a14ed,
   0xa9e3e905, 0xfcefa3f8, 0x676f02d9, 0x8d2a4c8a,
   0xfffa3942, 0x8771f681, 0x6d9d6122, 0xfde5380c,
   0xa4beea44, 0x4bdecfa9, 0xf6bb4b60, 0xbebfbc70,
   0x289b7ec6, 0xeaa127fa, 0xd4ef3085, 0x04881d05,
   0xd9d4d039, 0xe6db99e5, 0x1fa27cf8, 0xc4ac5665,
   0xf4292244, 0x432aff97, 0xab9423a7, 0xfc93a039,
   0x655b59c3, 0x8f0ccc92, 0xffeff47d, 0x85845dd1,
   0x6fa87e4f, 0xfe2ce6e0, 0xa3014314, 0x4e0811a1,
   0xf7537e82, 0xbd3af235, 0x2ad7d2bb, 0xeb86d391]

/-- The 64 MD5 per-round rotation amounts. -/
def md5S : List Nat :=
  [7, 12, 17, 22, 7, 12, 17, 22, 7, 12, 17, 22, 7, 12, 17, 22,
   5, 9, 14, 20, 5, 9, 14, 20, 5, 9, 14, 20, 5, 9, 14, 20,
   4, 11, 16, 23, 4, 11, 16, 23, 4, 11, 16, 23, 4, 11, 16, 23,
   6, 10, 15, 21, 6, 10, 15, 21, 6, 10, 15, 21, 6, 10, 15, 21]

/-- Little-endian 32-bit word from up to four bytes. -/
def leWord (bs : List Nat) : Nat :=
  bs.getD 0 0 + 256 * bs.getD 1 0 + 65536 * bs.getD 2 0 + 16777216 * bs.getD 3 0

/-- Split a byte list into little-endian 32-bit words (fuel-driven so that
the kernel can reduce it). -/
def toWordsAux : Nat → List Nat → List Nat
  | 0, _ => []
  | _, [] => []
  | n + 1, b :: bs => leWord (b :: bs.take 3) :: toWordsAux n (bs.drop 3)

/-- Split a byte list into little-endian 32-bit words. -/
def toWords (l : List Nat) : List Nat := toWordsAux l.length l

/-- Split a byte list into 64-byte blocks (fuel-driven). -/
def toBlocksAux : Nat → List Nat → List (List Nat)
  | 0, _ => []
  | _, [] => []
  | n + 1, b :: bs => (b :: bs.take 63) :: toBlocksAux n (bs.drop 63)

/-- Split a byte list into 64-byte blocks. -/
def toBlocks (l : List Nat) : List (List Nat) := toBlocksAux l.length l

/-- Little-endian byte expansion: `leBytes w n` is the `n` low bytes of `w`. -/
def leBytes (w : Nat) : Nat → List Nat
  | 0 => []
  | n + 1 => w % 256 :: leBytes (w / 256) n

/-- MD5 padding: `0x80`, zeros to 56 mod 64, then the 64-bit little-endian
bit length. -/
def md5Pad (msg : List Nat) : List Nat :=
  msg ++ 128 :: List.replicate ((119 - msg.length % 64) % 64) 0
      ++ leBytes (8 * msg.length % 18446744073709551616) 8

/-- One MD5 round applied to the state quadruple. -/
def md5Step (m : List Nat) (q : Nat × Nat × Nat × Nat) (i : Nat) :
    Nat × Nat × Nat × Nat :=
  match q with
  | (a, b, c, d) =>
    let f := if i < 16 then md5F b c d
             else if i < 32 then md5G b c d
             else if i < 48 then md5H b c d
             else md5I b c d
    let g := if i < 16 then i
             else if i < 32 then (5 * i + 1) % 16
             else if i < 48 then (3 * i + 5) % 16
             else 7 * i % 16
    let e := (f + a + md5K.getD i 0 + m.getD g 0) % 4294967296
    (d, (b + rotl32 e (md5S.getD i 0)) % 4294967296, b, c)

/-- Process one 16-word block. -/
def md5Block (st : Nat × Nat × Nat × Nat) (m : List Nat) :
    Nat × Nat × Nat × Nat :=
  match st with
  | (a0, b0, c0, d0) =>
    match (List.range 64).foldl (md5Step m) (a0, b0, c0, d0) with
    | (a, b, c, d) =>
      ((a0 + a) % 4294967296, (b0 + b) % 4294967296,
       (c0 + c) % 4294967296, (d0 + d) % 4294967296)

/-- MD5 digest of a byte sequence, as 16 bytes. -/
def md5Digest (msg : List Nat) : List Nat :=
  match (toBlocks (md5Pad msg)).foldl (fun st blk => md5Block st (toWords blk))
      (0x67452301, 0xefcdab89, 0x98badcfe, 0x10325476) with
  | (a, b, c, d) => leBytes a 4 ++ leBytes b 4 ++ leBytes c 4 ++ leBytes d 4

/-- Lowercase hex digit for `n < 16`. -/
def hexDigit (n : Nat) : Char :=
  if n < 10 then Char.ofNat (48 + n) else Char.ofNat (87 + n)

/-- Two lowercase hex digits of a byte. -/
def byteHex (b : Nat) : List Char := [hexDigit (b / 16), hexDigit (b % 16)]

/-- Lowercase hexadecimal MD5 digest of the UTF-8 bytes of a text; models
`hashlib.md5(text.encode()).hexdigest()`. -/
def md5HexChars (s : List Char) : List Char :=
  ((md5Digest (utf8Bytes s)).map byteHex).flatten

/-! ### Non-greedy doubled-delimiter substitution

All four substitutions of the source (`\[\[(.+?)\]\]`, `\(\((.+?)\)\)`,
`\*\*(.+?)\*\*`, `__(.+?)__`) have the shape: doubled opener character,
non-empty group of non-newline characters, doubled closer character,
leftmost match with shortest group, scan resuming after the match. -/

/-- Earliest split of `l` as `pre ++ [c, c] ++ post` with `pre` free of
newlines; returns `(pre, post)`. -/
def closeSplit (c : Char) : List Char → Option (List Char × List Char)
  | x :: y :: r =>
    if x = c ∧ y = c then some ([], r)
    else if x = '\n' then none
    else
      match closeSplit c (y :: r) with
      | some (pre, post) => some (x :: pre, post)
      | none => none
  | _ => none

/-- Shortest non-empty newline-free group followed by the doubled closer
`c`; returns the group and the text after the closer.  This is how the
non-greedy `(.+?)` followed by the closer matches. -/
def findClose (c : Char) : List Char → Option (List Char × List Char)
  | [] => none
  | x :: rest =>
    if x = '\n' then none
    else
      match closeSplit c rest with
      | some (pre, post) => some (x :: pre, post)
      | none => none

/-- One `re.sub` pass (fuel-driven): doubled opener `o`, doubled closer
`c`, each matched group `g` replaced by `f g`. -/
def subPairAux (o c : Char) (f : List Char → List Char) : Nat → List Char → List Char
  | 0, l => l
  | _ + 1, [] => []
  | _ + 1, [x] => [x]
  | n + 1, x :: y :: rest =>
    if x = o ∧ y = o then
      match findClose c rest with
      | some (g, t) => f g ++ subPairAux o c f n t
      | none => x :: subPairAux o c f n (y :: rest)
    else x :: subPairAux o c f n (y :: rest)

/-- One `re.sub` pass over a whole line. -/
def subPair (o c : Char) (f : List Char → List Char) (l : List Char) : List Char :=
  subPairAux o c f l.length l

/-- Group replacement for `((...))`: drop every `c` and `C`; models
`.replace('c', '').replace('C', '')`. -/
def stripCs (g : List Char) : List Char :=
  g.filter fun ch => !(ch = 'c' || ch = 'C')

/-- Model of the source's `process_special_syntax`: first the `[[...]]`
MD5 pass, then the `((...))` character-strip pass. -/
def process_special (text : List Char) : List Char :=
  subPair '(' ')' stripCs (subPair '[' ']' md5HexChars text)

/-- Model of the source's `parse_bold_text`: first `**...**` to
`<b>...</b>`, then `__...__` to `<em>...</em>`. -/
def parse_bold_text (text : List Char) : List Char :=
  subPair '_' '_' (fun g => "<em>".toList ++ g ++ "</em>".toList)
    (subPair '*' '*' (fun g => "<b>".toList ++ g ++ "</b>".toList) text)

/-- The full inline pipeline applied to every emitted text payload:
special syntax first, then bold/emphasis. -/
def inlineProcess (text : List Char) : List Char :=
  parse_bold_text (process_special text)

/-- Occurrence test for a doubled delimiter: `hasPair a l` holds when two
adjacent characters of `l` both equal `a`. -/
def hasPair (a : Char) : List Char → Bool
  | x :: y :: r => if x = a ∧ y = a then true else hasPair a (y :: r)
  | _ => false

/-! ### Block state machine -/

/-- The three context flags of `convert_markdown_to_html`. -/
structure BlockState where
  in_unordered_list : Bool
  in_ordered_list : Bool
  in_paragraph : Bool
deriving DecidableEq

/-- The state at stream start: all flags false. -/
def initState : BlockState := ⟨false, false, false⟩

/-- The five mutually exclusive line classes of the source's `if`/`elif`
chain (in source priority order). -/
inductive LineKind where
  | heading
  | uitem
  | oitem
  | para
  | blank
deriving DecidableEq

/-- Classification of a stripped line, with the source's priority:
`startswith('#')`, `startswith('- ')`, `startswith('* ')`, non-empty,
else blank. -/
def classify (s : List Char) : LineKind :=
  if ['#'].isPrefixOf s then .heading
  else if ['-', ' '].isPrefixOf s then .uitem
  else if ['*', ' '].isPrefixOf s then .oitem
  else if s.isEmpty then .blank
  else .para

/-- The `f'<h{n}>{t}</h{n}>'` heading line. -/
def headingLine (n : Nat) (t : List Char) : List Char :=
  "<h".toList ++ (Nat.repr n).toList ++ ">".toList ++ t
    ++ "</h".toList ++ (Nat.repr n).toList ++ ">".toList

/-- The `f'    <li>{t}</li>'` list-item line. -/
def liLine (t : List Char) : List Char :=
  "    <li>".toList ++ t ++ "</li>".toList

/-- The closing tags the heading and paragraph branches emit, in source
order: `</ul>`, then `</ol>`, then `</p>`, each only if its flag is set. -/
def closeUlOl (st : BlockState) : List (List Char) :=
  (if st.in_unordered_list then ["</ul>".toList] else [])
    ++ (if st.in_ordered_list then ["</ol>".toList] else [])

/-- Processing of a single input line: returns the successor state and the
output lines written for this line, translated branch by branch from the
loop body of `convert_markdown_to_html`. -/
def processLine (st : BlockState) (line : List Char) : BlockState × List (List Char) :=
  let s := pyStrip line
  match classify s with
  | .heading =>
    let heading_level := (s.takeWhile fun c => c ≠ ' ').length
    let heading_text := inlineProcess (pyStrip (s.drop heading_level))
    (initState,
      closeUlOl st ++ (if st.in_paragraph then ["</p>".toList] else [])
        ++ [headingLine heading_level heading_text])
  | .uitem =>
    let t := inlineProcess (pyStrip (s.drop 2))
    if st.in_unordered_list then (st, [liLine t])
    else
      ({ st with in_unordered_list := true, in_paragraph := false },
        (if st.in_paragraph then ["</p>".toList] else []) ++ ["<ul>".toList, liLine t])
  | .oitem =>
    let t := inlineProcess (pyStrip (s.drop 2))
    if st.in_ordered_list then (st, [liLine t])
    else
      ({ st with in_ordered_list := true, in_paragraph := false },
        (if st.in_paragraph then ["</p>".toList] else []) ++ ["<ol>".toList, liLine t])
  | .para =>
    let t := inlineProcess s
    if st.in_paragraph then (st, ["    <br/>".toList, "    ".toList ++ t])
    else
      (⟨false, false, true⟩,
        closeUlOl st ++ ["<p>".toList, "    ".toList ++ t])
  | .blank =>
    ({ st with in_paragraph := false },
      if st.in_paragraph then ["</p>".toList] else [])

/-- Processing of a line sequence from a given state. -/
def processLines (st : BlockState) : List (List Char) → BlockState × List (List Char)
  | [] => (st, [])
  | l :: ls =>
    match processLine st l with
    | (st1, out1) =>
      match processLines st1 ls with
      | (st2, out2) => (st2, out1 ++ out2)

/-- The end-of-stream flush: close `</ul>`, then `</ol>`, then `</p>`,
each only if its flag is set. -/
def flushState (st : BlockState) : List (List Char) :=
  (if st.in_unordered_list then ["</ul>".toList] else [])
    ++ (if st.in_ordered_list then ["</ol>".toList] else [])
    ++ (if st.in_paragraph then ["</p>".toList] else [])

/-- The whole conversion: process every input line from the all-false
state, then flush; models `convert_markdown_to_html` at the level of line
sequences. -/
def convertLines (lines : List (List Char)) : List (List Char) :=
  match processLines initState lines with
  | (st, out) => out ++ flushState st

/-- The Block Context after all input lines (before the flush). -/
def finalState (lines : List (List Char)) : BlockState :=
  (processLines initState lines).1

/-! ### Driver / CLI model -/

/-- Observable outcome of one program run: exit code, error-stream lines,
and the output file's content (`none` when the output file is never
created). -/
structure RunResult where
  exitCode : Nat
  errLines : List (List Char)
  outFile : Option (List (List Char))
deriving DecidableEq

/-- Model of `main`: `argv` is the full argument vector (program name
first) and `fs` maps an input path to its line content, or `none` when the
path is not an existing regular file.  Translated from `main` +
`convert_markdown_to_html`. -/
def mainRun (argv : List (List Char)) (fs : List Char → Option (List (List Char))) :
    RunResult :=
  match argv with
  | _prog :: inp :: _outp :: _ =>
    match fs inp with
    | none => ⟨1, ["Missing ".toList ++ inp], none⟩
    | some lines => ⟨0, [], some (convertLines lines)⟩
  | _ => ⟨1, ["Usage: ./markdown2html.py README.md README.html".toList], none⟩

/-! ### Statement-side definitions (from the spec's words) -/

/-- Modelled from the spec: the count of leading `#` characters of a
(stripped) line — the level the spec claims a heading gets. -/
def countLeadingHash (s : List Char) : Nat :=
  (s.takeWhile fun c => c = '#').length

/-- The `<li>` output line an unordered-item input line produces, `none`
for non-item lines; used to state the run-shape property. -/
def ulItemLine (l : List Char) : Option (List Char) :=
  if ['-', ' '].isPrefixOf (pyStrip l) then
    some (liLine (inlineProcess (pyStrip ((pyStrip l).drop 2))))
  else none

/-- Stack-based well-nesting check of the emitted block tags: every
`<ul>`/`<ol>`/`<p>` line pushes, every `</ul>`/`</ol>`/`</p>` line must
close the most recently opened block, and no block stays open. -/
def nestCheck : List (List Char) → List (List Char) → Bool
  | stk, [] => stk.isEmpty
  | stk, l :: ls =>
    if l = "<ul>".toList || l = "<ol>".toList || l = "<p>".toList then
      nestCheck (l :: stk) ls
    else if l = "</ul>".toList then
      match stk with
      | t :: r => t = "<ul>".toList && nestCheck r ls
      | [] => false
    else if l = "</ol>".toList then
      match stk with
      | t :: r => t = "<ol>".toList && nestCheck r ls
      | [] => false
    else if l = "</p>".toList then
      match stk with
      | t :: r => t = "<p>".toList && nestCheck r ls
      | [] => false
    else nestCheck stk ls

/-- Output is balanced and properly (last-opened, first-closed) nested. -/
def wellNested (out : List (List Char)) : Bool := nestCheck [] out

/-! ### Helper lemmas -/

theorem pair_isPrefixOf {a b : Char} {s : List Char}
    (h : [a, b].isPrefixOf s = true) : ∃ t, s = a :: b :: t := by
  match s with
  | [] => simp [List.isPrefixOf] at h
  | [x] => simp [List.isPrefixOf] at h
  | x :: y :: t =>
    simp [List.isPrefixOf] at h
    exact ⟨t, by rw [h.1, h.2]⟩

theorem single_isPrefixOf {a : Char} {s : List Char}
    (h : [a].isPrefixOf s = true) : ∃ t, s = a :: t := by
  match s with
  | [] => simp [List.isPrefixOf] at h
  | x :: t =>
    simp [List.isPrefixOf] at h
    exact ⟨t, by rw [h]⟩

theorem classify_of_uitem {s : List Char}
    (h : ['-', ' '].isPrefixOf s = true) : classify s = .uitem := by
  obtain ⟨t, rfl⟩ := pair_isPrefixOf h
  simp [classify, List.isPrefixOf]

theorem classify_of_oitem {s : List Char}
    (h : ['*', ' '].isPrefixOf s = true) : classify s = .oitem := by
  obtain ⟨t, rfl⟩ := pair_isPrefixOf h
  simp [classify, List.isPrefixOf]

/-- Identity of a substitution pass on text free of the doubled opener. -/
theorem subPairAux_no_open (o c : Char) (f : List Char → List Char) :
    ∀ (n : Nat) (l : List Char), hasPair o l = false → subPairAux o c f n l = l := by
  intro n
  induction n with
  | zero => intro l _; rfl
  | succ n ih =>
    intro l h
    match l with
    | [] => rfl
    | [x] => rfl
    | x :: y :: r =>
      rw [hasPair] at h
      by_cases hxy : x = o ∧ y = o
      · rw [if_pos hxy] at h; exact absurd h (by simp)
      · rw [if_neg hxy] at h
        rw [subPairAux, if_neg hxy, ih (y :: r) h]

/-! ### Claims -/

/-- C1: the spec claims that at most one of the three Block Context flags
is true at any point.  The code violates this: after the input lines
`- a` then `* b`, both `in_unordered_list` and `in_ordered_list` are true,
because the ordered-item branch never closes an open unordered list. -/
theorem C1_flag_exclusion_violated :
    (finalState ["- a".toList, "* b".toList]).in_unordered_list = true ∧
    (finalState ["- a".toList, "* b".toList]).in_ordered_list = true := by
  decide

/-- C2: the spec claims an ordered marker met while an unordered list is
open first emits `</ul>`.  The code instead emits `<ol>` directly after
the unordered item, with no `</ul>` before it; the `</ul>` only appears
at the end-of-stream flush. -/
theorem C2_list_switch_does_not_close :
    convertLines ["- a".toList, "* b".toList] =
      ["<ul>".toList, "    <li>a</li>".toList, "<ol>".toList,
       "    <li>b</li>".toList, "</ul>".toList, "</ol>".toList] := by
  decide

/-- C3: the spec claims the emitted HTML is always properly nested
(last-opened, first-closed).  On the input `- a`, `* b` the output closes
`</ul>` before the later-opened `<ol>` is closed, so the stack-based
nesting check fails. -/
theorem C3_output_not_properly_nested :
    wellNested (convertLines ["- a".toList, "* b".toList]) = false := by
  decide

/-- C4 counterexample: the claim says the emitted heading level equals the
count of leading `#` characters.  For the line `#a b` the code emits
`<h2>b</h2>` (the length of the first space-delimited token `#a`), while
the count of leading `#` characters is 1, so the heading the claim
predicts (level 1, text the trimmed remainder after the marker) is not
what is emitted. -/
theorem C4_leading_hash_counterexample :
    convertLines ["#a b".toList] = ["<h2>b</h2>".toList] ∧
    countLeadingHash (pyStrip "#a b".toList) = 1 ∧
    convertLines ["#a b".toList] ≠
      [headingLine (countLeadingHash (pyStrip "#a b".toList))
        (inlineProcess (pyStrip ((pyStrip "#a b".toList).drop
          (countLeadingHash (pyStrip "#a b".toList)))))] := by
  decide

/-- C5 counterexample: the claim says a marker followed by more than one
space is classified as paragraph content.  The code's `startswith('- ')`
accepts any extra spaces, so `-  x` is a list item, not a paragraph. -/
theorem C5_two_space_marker_counterexample :
    classify (pyStrip "-  x".toList) = LineKind.uitem ∧
    LineKind.uitem ≠ LineKind.para ∧
    convertLines ["-  x".toList] =
      ["<ul>".toList, "    <li>x</li>".toList, "</ul>".toList] := by
  decide

/-- C7: the special-syntax pass replaces `[[...]]` spans by the lowercase
MD5 hex digest of the inner text's UTF-8 bytes and then `((...))` spans by
their inner text with `c`/`C` removed: `[[abc]]` gives the digest of
`abc`, `((Cocoa))` gives `ooa`, the MD5 pass runs first (so in
`[[((x))]]` the braces span is hashed before the paren pass could touch
it), and unmatched delimiters are left untouched. -/
theorem C7_special_syntax_passes :
    process_special "[[abc]]".toList = "900150983cd24fb0d6963f7d28e17f72".toList ∧
    process_special "((Cocoa))".toList = "ooa".toList ∧
    process_special "[[((x))]]".toList = md5HexChars "((x))".toList ∧
    md5HexChars "((x))".toList ≠ md5HexChars "x".toList ∧
    process_special "a[[b ))c".toList = "a[[b ))c".toList := by
  decide

/-- C10: delimiter pairs with empty inner text are never substituted:
`[[]]`, `(())`, `****` and `____` pass through every inline pass
unchanged, and in particular `[[]]` is not replaced by the MD5 digest of
the empty string. -/
theorem C10_empty_spans_not_replaced :
    process_special "[[]]".toList = "[[]]".toList ∧
    process_special "(())".toList = "(())".toList ∧
    parse_bold_text "****".toList = "****".toList ∧
    parse_bold_text "____".toList = "____".toList ∧
    inlineProcess "[[]] (()) **** ____".toList = "[[]] (()) **** ____".toList ∧
    md5HexChars [] = "d41d8cd98f00b204e9800998ecf8427e".toList ∧
    process_special "[[]]".toList ≠ md5HexChars [] := by
  decide

/-- C9: a line containing none of the doubled delimiters `[[`, `((`, `**`
and `__` passes through the full inline pipeline (special syntax, then
bold/emphasis) unchanged. -/
theorem C9_delimiter_free_identity (l : List Char)
    (h1 : hasPair '[' l = false) (h2 : hasPair '(' l = false)
    (h3 : hasPair '*' l = false) (h4 : hasPair '_' l = false) :
    parse_bold_text (process_special l) = l := by
  unfold process_special subPair
  rw [subPairAux_no_open '[' ']' md5HexChars l.length l h1,
    subPairAux_no_open '(' ')' stripCs l.length l h2]
  unfold parse_bold_text subPair
  rw [subPairAux_no_open '*' '*' _ l.length l h3,
    subPairAux_no_open '_' '_' _ l.length l h4]

/-- Witness for C9 at a concrete delimiter-free line. -/
theorem C9_identity_witness :
    hasPair '[' "Hello, *world*!".toList = false ∧
    hasPair '(' "Hello, *world*!".toList = false ∧
    hasPair '*' "Hello, *world*!".toList = false ∧
    hasPair '_' "Hello, *world*!".toList = false ∧
    parse_bold_text (process_special "Hello, *world*!".toList) =
      "Hello, *world*!".toList := by
  refine ⟨by decide, by decide, by decide, by decide, ?_⟩
  exact C9_delimiter_free_identity "Hello, *world*!".toList
    (by decide) (by decide) (by decide) (by decide)

theorem classify_of_heading {s : List Char}
    (h : ['#'].isPrefixOf s = true) : classify s = .heading := by
  obtain ⟨t, rfl⟩ := single_isPrefixOf h
  simp [classify, List.isPrefixOf]

theorem classify_of_blank : classify [] = .blank := by
  simp [classify, List.isPrefixOf]

/-- Effect of a heading line from any state: all contexts are closed in
source order and one heading line is emitted, its level the length of the
first space-delimited token of the stripped line, its text the trimmed
remainder after that token, inline-processed. -/
theorem heading_step (st : BlockState) (line : List Char)
    (h : ['#'].isPrefixOf (pyStrip line) = true) :
    processLine st line =
      (initState,
        closeUlOl st ++ (if st.in_paragraph then ["</p>".toList] else []) ++
          [headingLine ((pyStrip line).takeWhile fun c => c ≠ ' ').length
            (inlineProcess (pyStrip ((pyStrip line).drop
              ((pyStrip line).takeWhile fun c => c ≠ ' ').length)))]) := by
  have hc := classify_of_heading h
  simp only [processLine, hc]

/-- Effect of a blank line from any state: `</p>` is emitted exactly when
a paragraph is open, the paragraph flag is cleared, and the list flags are
untouched. -/
theorem blank_step (st : BlockState) (line : List Char) (h : pyStrip line = []) :
    processLine st line =
      ({ st with in_paragraph := false },
        if st.in_paragraph then ["</p>".toList] else []) := by
  have hc : classify (pyStrip line) = .blank := by rw [h]; exact classify_of_blank
  simp only [processLine, hc]

/-- Effect of an unordered-item line. -/
theorem uitem_step (st : BlockState) (l : List Char)
    (hi : ['-', ' '].isPrefixOf (pyStrip l) = true) :
    processLine st l =
      if st.in_unordered_list then
        (st, [liLine (inlineProcess (pyStrip ((pyStrip l).drop 2)))])
      else
        ({ st with in_unordered_list := true, in_paragraph := false },
          (if st.in_paragraph then ["</p>".toList] else []) ++
            ["<ul>".toList, liLine (inlineProcess (pyStrip ((pyStrip l).drop 2)))]) := by
  have hc := classify_of_uitem hi
  simp only [processLine, hc]

theorem ulItemLine_of_blank {l : List Char} (h : pyStrip l = []) :
    ulItemLine l = none := by
  simp [ulItemLine, h, List.isPrefixOf]

theorem ulItemLine_of_item {l : List Char}
    (h : ['-', ' '].isPrefixOf (pyStrip l) = true) :
    ulItemLine l = some (liLine (inlineProcess (pyStrip ((pyStrip l).drop 2)))) := by
  simp [ulItemLine, h]

/-- Inside an open unordered list (paragraph closed), a run of blank and
unordered-item lines emits exactly one `<li>` line per item, in order, and
preserves the state — whatever the ordered-list flag is. -/
theorem processLines_ul_run (b : Bool) :
    ∀ ls : List (List Char),
      (∀ l ∈ ls, pyStrip l = [] ∨ ['-', ' '].isPrefixOf (pyStrip l) = true) →
      processLines ⟨true, b, false⟩ ls = (⟨true, b, false⟩, ls.filterMap ulItemLine) := by
  intro ls
  induction ls with
  | nil => intro _; rfl
  | cons l ls ih =>
    intro h
    have hrest := fun x hx => h x (List.mem_cons_of_mem _ hx)
    rcases h l (List.mem_cons_self _ _) with hb | hi
    · rw [processLines, blank_step _ _ hb]
      simp [ih hrest, ulItemLine_of_blank hb]
    · rw [processLines, uitem_step _ _ hi]
      simp [ih hrest, ulItemLine_of_item hi]

/-- From the initial state, a run of blank and unordered-item lines with
at least one item emits `<ul>` followed by one `<li>` per item. -/
theorem processLines_ul_open :
    ∀ ls : List (List Char),
      (∀ l ∈ ls, pyStrip l = [] ∨ ['-', ' '].isPrefixOf (pyStrip l) = true) →
      (∃ l ∈ ls, ['-', ' '].isPrefixOf (pyStrip l) = true) →
      processLines initState ls =
        (⟨true, false, false⟩, "<ul>".toList :: ls.filterMap ulItemLine) := by
  intro ls
  induction ls with
  | nil =>
    rintro _ ⟨l, hl, _⟩
    exact absurd hl (List.not_mem_nil _)
  | cons l ls ih =>
    intro hall hex
    have hrest := fun x hx => hall x (List.mem_cons_of_mem _ hx)
    rcases hall l (List.mem_cons_self _ _) with hb | hi
    · have hex' : ∃ x ∈ ls, ['-', ' '].isPrefixOf (pyStrip x) = true := by
        rcases hex with ⟨x, hx, hxi⟩
        rcases List.mem_cons.mp hx with rfl | hx'
        · rw [hb] at hxi; simp [List.isPrefixOf] at hxi
        · exact ⟨x, hx', hxi⟩
      rw [processLines, blank_step _ _ hb]
      simp only [initState] at ih ⊢
      simp [ih hrest hex', ulItemLine_of_blank hb]
    · rw [processLines, uitem_step _ _ hi]
      simp only [initState]
      simp [processLines_ul_run false ls hrest, ulItemLine_of_item hi]

/-- C6: a blank line emits `</p>` exactly when a paragraph is open and
clears the flag — it emits nothing else and never closes an open list —
and consequently a run of unordered-item lines with intervening blank
lines converts to `<ul>`, one `<li>` per item in order, and `</ul>`. -/
theorem C6_blank_line_and_ul_runs :
    (∀ (st : BlockState) (line : List Char), pyStrip line = [] →
        processLine st line =
          ({ st with in_paragraph := false },
            if st.in_paragraph then ["</p>".toList] else [])) ∧
    (∀ ls : List (List Char),
        (∀ l ∈ ls, pyStrip l = [] ∨ ['-', ' '].isPrefixOf (pyStrip l) = true) →
        (∃ l ∈ ls, ['-', ' '].isPrefixOf (pyStrip l) = true) →
        convertLines ls =
          "<ul>".toList :: (ls.filterMap ulItemLine ++ ["</ul>".toList])) := by
  refine ⟨blank_step, ?_⟩
  intro ls hall hex
  unfold convertLines
  rw [processLines_ul_open ls hall hex]
  rfl

/-- Witness for C6: a blank line closing an open paragraph, and a
concrete unordered run with an intervening blank line. -/
theorem C6_blank_ul_witness :
    processLine ⟨false, false, true⟩ [] = (⟨false, false, false⟩, ["</p>".toList]) ∧
    convertLines ["- a".toList, [], "- b".toList] =
      ["<ul>".toList, "    <li>a</li>".toList, "    <li>b</li>".toList,
       "</ul>".toList] := by
  constructor
  · exact (C6_blank_line_and_ul_runs.1 ⟨false, false, true⟩ [] rfl).trans (by decide)
  · have h := C6_blank_line_and_ul_runs.2 ["- a".toList, [], "- b".toList]
      (by decide) ⟨"- a".toList, by simp, by decide⟩
    exact h.trans (by decide)

/-- C5 amended: a stripped line is classified as a list item exactly when
it begins with the one-character marker followed by at least one space
(the two-character prefix `- ` or `* `); a marker with no following space
falls through to paragraph classification, but extra spaces after the
first are accepted (and trimmed from the item text), not demoted to a
paragraph. -/
theorem C5_amended_marker_spacing :
    (∀ s : List Char, classify s = LineKind.uitem ↔ ['-', ' '].isPrefixOf s = true) ∧
    (∀ s : List Char, classify s = LineKind.oitem ↔ ['*', ' '].isPrefixOf s = true) ∧
    classify "-x".toList = LineKind.para ∧
    classify "*x".toList = LineKind.para ∧
    classify "-  x".toList = LineKind.uitem ∧
    classify "*  x".toList = LineKind.oitem := by
  refine ⟨?_, ?_, by decide, by decide, by decide, by decide⟩
  · intro s
    constructor
    · intro h
      unfold classify at h
      split_ifs at h with h1 h2 h3 h4
      any_goals simp at h
      exact h2
    · exact classify_of_uitem
  · intro s
    constructor
    · intro h
      unfold classify at h
      split_ifs at h with h1 h2 h3 h4
      any_goals simp at h
      exact h3
    · exact classify_of_oitem

/-- First-token length agrees with the leading-`#` count whenever the
first space-delimited token consists only of `#` characters. -/
theorem tokenLength_eq_countLeadingHash :
    ∀ s : List Char,
      (s.takeWhile fun c => c ≠ ' ').all (fun c => c = '#') = true →
      (s.takeWhile fun c => c ≠ ' ').length = countLeadingHash s := by
  intro s
  induction s with
  | nil => intro _; rfl
  | cons x t ih =>
    intro h
    by_cases hx : x = ' '
    · subst hx
      simp [countLeadingHash]
    · rw [List.takeWhile_cons, if_pos (by simp [hx])] at h
      simp only [List.all_cons, Bool.and_eq_true, decide_eq_true_eq] at h
      obtain ⟨hx', ht⟩ := h
      subst hx'
      unfold countLeadingHash
      rw [List.takeWhile_cons, if_pos (by simp), List.takeWhile_cons,
        if_pos (by decide)]
      simp only [List.length_cons]
      have h2 := ih ht
      unfold countLeadingHash at h2
      omega

/-- C4 amended: for every heading line the emitted level is the length of
the first space-delimited token of the stripped line — which equals the
count of leading `#` characters exactly when that token consists only of
`#` characters — with no upper clamp (seven `#` give `<h7>`), and the text
is the trimmed remainder after that token length. -/
theorem C4_amended_heading_level :
    (∀ (st : BlockState) (line : List Char),
        ['#'].isPrefixOf (pyStrip line) = true →
        processLine st line =
          (initState,
            closeUlOl st ++ (if st.in_paragraph then ["</p>".toList] else []) ++
              [headingLine ((pyStrip line).takeWhile fun c => c ≠ ' ').length
                (inlineProcess (pyStrip ((pyStrip line).drop
                  ((pyStrip line).takeWhile fun c => c ≠ ' ').length)))])) ∧
    (∀ s : List Char,
        (s.takeWhile fun c => c ≠ ' ').all (fun c => c = '#') = true →
        (s.takeWhile fun c => c ≠ ' ').length = countLeadingHash s) ∧
    convertLines ["####### seven".toList] = ["<h7>seven</h7>".toList] := by
  exact ⟨heading_step, tokenLength_eq_countLeadingHash, by decide⟩

/-- Witness for C4 at a concrete heading met inside an open paragraph,
and a concrete all-`#` first token. -/
theorem C4_heading_witness :
    processLine ⟨false, false, true⟩ "## hey".toList =
      (initState, ["</p>".toList, "<h2>hey</h2>".toList]) ∧
    ("#### t".toList.takeWhile fun c => c ≠ ' ').length =
      countLeadingHash "#### t".toList := by
  constructor
  · exact (C4_amended_heading_level.1 ⟨false, false, true⟩ "## hey".toList
      (by decide)).trans (by decide)
  · exact C4_amended_heading_level.2.1 "#### t".toList (by decide)

/-- C8: when the input path is not an existing regular file, the run
prints the missing-file message to the error stream, exits with code 1
and never creates the output file. -/
theorem C8_missing_input_file (prog inp outp : List Char)
    (rest : List (List Char)) (fs : List Char → Option (List (List Char)))
    (h : fs inp = none) :
    mainRun (prog :: inp :: outp :: rest) fs =
      ⟨1, ["Missing ".toList ++ inp], none⟩ := by
  simp only [mainRun, h]

/-- Witness for C8 at a concrete missing input file. -/
theorem C8_missing_input_witness :
    mainRun ["./markdown2html.py".toList, "README.md".toList, "README.html".toList]
        (fun _ => none) =
      ⟨1, ["Missing README.md".toList], none⟩ := by
  exact (C8_missing_input_file "./markdown2html.py".toList "README.md".toList
    "README.html".toList [] (fun _ => none) rfl).trans (by decide)

end Markdown2Html
